import Mathlib

/-!
Verification development for the EOS namespace client of the reva storage
gateway.  The Go sources are embedded shallowly: Go strings become lists of
characters (Go indexes and slices strings bytewise; all inputs of interest
are ASCII, where the two views agree), Go maps with string keys become
association lists with overwrite-on-insert, fallible Go functions become
Option/Except valued Lean functions, and the HTTP redirect/retry loops
become step functions driven by explicit clock and response streams.
-/

set_option maxRecDepth 100000

deriving instance DecidableEq for Except

namespace EosClient

/-- Go strings, viewed as their character sequence. -/
abbrev GoStr := List Char

/-- Model of strings.Split with a one-character separator.  As in Go,
splitting the empty string yields one empty field. -/
def splitOnChar (sep : Char) : GoStr → List GoStr
  | [] => [[]]
  | c :: rest =>
    let r := splitOnChar sep rest
    if c = sep then [] :: r
    else
      match r with
      | [] => [[c]]
      | h :: t => (c :: h) :: t

/-- Model of strings.Join. -/
def joinWith (sep : GoStr) : List GoStr → GoStr
  | [] => []
  | [s] => s
  | s :: rest => s ++ sep ++ joinWith sep rest

/-- Does the string begin with the given substring (strings.HasPrefix)? -/
def strStarts : GoStr → GoStr → Bool
  | _, [] => true
  | [], _ :: _ => false
  | c :: s, p :: ps => c = p && strStarts s ps

/-- Model of strings.Index: byte index of the first occurrence of sub in s,
none standing for the -1 that Go returns when sub is absent. -/
def subIndex (s sub : GoStr) : Option Nat :=
  match s with
  | [] => if sub = [] then some 0 else none
  | _ :: rest =>
    if strStarts s sub then some 0
    else (subIndex rest sub).map (· + 1)

/-- Model of strings.TrimSuffix(s, "/"): drop one trailing slash if present. -/
def trimSlash (s : GoStr) : GoStr :=
  if s.getLast? = some '/' then s.dropLast else s

/-- Numeric value of a decimal digit character. -/
def digitVal (c : Char) : Option Nat :=
  if '0' ≤ c ∧ c ≤ '9' then some (c.toNat - 48) else none

/-- Model of strconv.ParseUint(s, 10, bitSize): a nonempty all-digit string
within the range of the given bit size; anything else is an error. -/
def goParseUint (s : GoStr) (bitSize : Nat) : Option Nat :=
  if s = [] then none
  else
    (s.foldl (fun acc c => acc.bind fun n => (digitVal c).map fun d => n * 10 + d)
      (some 0)).bind fun n =>
        if n < 2 ^ bitSize then some n else none

/-- Go map[string]string modelled as an association list whose insert
overwrites the existing binding of an equal key. -/
abbrev KV := List (GoStr × GoStr)

/-- Map insertion with overwrite, as a Go map assignment. -/
def kvSet (m : KV) (k v : GoStr) : KV :=
  match m with
  | [] => [(k, v)]
  | (k', v') :: rest => if k' = k then (k, v) :: rest else (k', v') :: kvSet rest k v

/-- Two-result Go map read: the bound value when the key is present. -/
def kvFind (m : KV) (k : GoStr) : Option GoStr :=
  match m with
  | [] => none
  | (k', v') :: rest => if k' = k then some v' else kvFind rest k

/-- One-result Go map read: the zero value (empty string) when absent. -/
def kvGet (m : KV) (k : GoStr) : GoStr :=
  (kvFind m k).getD []

/-- One step of the component-stack form of Go path.Clean: drop empty and
dot components, let dot-dot pop a previous component (or vanish at the root,
or accumulate when the path is relative). -/
def cleanStep (rooted : Bool) (stack : List GoStr) (comp : GoStr) : List GoStr :=
  if comp = [] ∨ comp = ['.'] then stack
  else if comp = ['.', '.'] then
    match stack with
    | [] => if rooted then [] else [comp]
    | top :: rest => if top = ['.', '.'] then comp :: stack else rest
  else comp :: stack

/-- Model of Go path.Clean for slash-separated paths: the empty path cleans
to dot, and the lexical simplification removes duplicate and trailing
slashes, dot components and resolvable dot-dot components. -/
def pathClean (p : GoStr) : GoStr :=
  if p = [] then ['.']
  else
    let rooted := p.head? = some '/'
    let comps := (splitOnChar '/' p).foldl (cleanStep rooted) []
    let body := joinWith ['/'] comps.reverse
    if rooted then '/' :: body
    else if body = [] then ['.'] else body

/-- Error values produced by the client, following pkg/errtypes plus the
wrapping done with errors.Wrap and the raw child exit errors of os/exec. -/
inductive EosError
  | notFound (msg : GoStr)
  | permissionDenied (msg : GoStr)
  | internalError (msg : GoStr)
  | notSupported (msg : GoStr)
  | invalidInput (msg : GoStr)
  | netTimeout (msg : GoStr)
  | netFail (msg : GoStr)
  | urlParseErr (rawURL : GoStr)
  | exitErr (code : Nat) (stderr : GoStr)
  | wrapped (context : GoStr) (cause : EosError)
deriving DecidableEq

/-- Error kinds of the specification taxonomy.  childExit is the kind of a
raw exec.ExitError that the client did not map to a typed error. -/
inductive ErrKind
  | notFound
  | permissionDenied
  | internalError
  | notSupported
  | invalidInput
  | netTimeout
  | netFail
  | urlParse
  | childExit
deriving DecidableEq

/-- Kind of an error, looking through errors.Wrap layers as errors.Cause
does. -/
def errKind : EosError → ErrKind
  | .notFound _ => .notFound
  | .permissionDenied _ => .permissionDenied
  | .internalError _ => .internalError
  | .notSupported _ => .notSupported
  | .invalidInput _ => .invalidInput
  | .netTimeout _ => .netTimeout
  | .netFail _ => .netFail
  | .urlParseErr _ => .urlParse
  | .exitErr _ _ => .childExit
  | .wrapped _ e => errKind e

/-- Client options of the eosclientgrpc package (the fields consulted by the
functions modelled here). -/
structure EosOptions where
  forceSingleUserMode : Bool := false
  useKeytab : Bool := false
  singleUsername : GoStr := []
  eosBinary : GoStr := []
  xrdcopyBinary : GoStr := []
  url : GoStr := []
  grpcURI : GoStr := []
  cacheDirectory : GoStr := []
  keytab : GoStr := []
  authkey : GoStr := []
  secProtocol : GoStr := []
deriving DecidableEq

/-- Model of os.TempDir() on the Unix hosts the client targets. -/
def osTempDir : GoStr := "/tmp".data

/-- Model of (opt *Options).init: the defaulting applied on construction.
The first branch reproduces the source condition exactly: SingleUsername is
replaced by apache when ForceSingleUserMode is set and SingleUsername is
NON-empty. -/
def optionsInit (o : EosOptions) : EosOptions :=
  let o := if o.forceSingleUserMode && !o.singleUsername.isEmpty then
    { o with singleUsername := "apache".data } else o
  let o := if o.eosBinary.isEmpty then { o with eosBinary := "/usr/bin/eos".data } else o
  let o := if o.xrdcopyBinary.isEmpty then
    { o with xrdcopyBinary := "/usr/bin/xrdcopy".data } else o
  let o := if o.url.isEmpty then { o with url := "root://eos-example.org".data } else o
  if o.cacheDirectory.isEmpty then { o with cacheDirectory := osTempDir } else o

/-- Username on which (c *Client).getUnixUser performs the passwd lookup
(gouser.Lookup): the input username, unless single-user mode substitutes the
configured SingleUsername. -/
def lookupTarget (o : EosOptions) (username : GoStr) : GoStr :=
  if o.forceSingleUserMode then o.singleUsername else username

/-- Trashbin record built from one line of recycle ls -m output. -/
structure DeletedEntry where
  restorePath : GoStr
  restoreKey : GoStr
  size : Nat
  deletionMTime : Nat
  isDir : Bool
deriving DecidableEq

/-- Model of getMap: fold key=value tokens into a map, ignoring tokens
without an equals sign and keeping the second piece of a multi-equals
token. -/
def getMap (parts : List GoStr) : KV :=
  parts.foldl
    (fun kv pair =>
      match splitOnChar '=' pair with
      | k :: v :: _ => kvSet kv k v
      | _ => kv)
    []

/-- Model of parseRecycleEntry: split the line on single spaces, detach the
last token as the restore-key pair, rejoin the tokens from position 9 up to
the detached last one as the restore-path pair, rebuild the token list and
read the typed fields out of the resulting map.  Go would panic on a line of
fewer than ten tokens where this model merely yields empty slices. -/
def parseRecycleEntry (raw : GoStr) : Option DeletedEntry :=
  let parts0 := splitOnChar ' ' raw
  let restoreKeyPair := parts0.getLast?.getD []
  let parts1 := parts0.dropLast
  let restorePathPair := joinWith [' '] (parts1.drop 9)
  let parts := parts1.take 9 ++ [restorePathPair, restoreKeyPair]
  let kv := getMap parts
  (goParseUint (kvGet kv "size".data) 64).bind fun size =>
    let isDir := kvGet kv "type".data = "recursive-dir".data
    (goParseUint ((splitOnChar '.' (kvGet kv "deletion-time".data)).headD []) 64).bind
      fun deletionMTime =>
        some
          { restorePath := kvGet kv "restore-path".data
            restoreKey := kvGet kv "restore-key".data
            size := size
            deletionMTime := deletionMTime
            isDir := isDir }

/-- Line loop of parseRecycleList: blank lines are skipped and the first
entry that fails to parse aborts the whole batch. -/
def parseRecycleLines : List GoStr → Option (List DeletedEntry)
  | [] => some []
  | l :: rest =>
    if l = [] then parseRecycleLines rest
    else
      match parseRecycleEntry l with
      | none => none
      | some e =>
        match parseRecycleLines rest with
        | none => none
        | some es => some (e :: es)

/-- Model of parseRecycleList. -/
def parseRecycleList (raw : GoStr) : Option (List DeletedEntry) :=
  parseRecycleLines (splitOnChar '\n' raw)

/-- Metadata record returned for a namespace entry (the fields set by the
embedded functions; every field keeps the default of its Go zero value until
a source line assigns it). -/
structure FileInfo where
  isDir : Bool := false
  mTimeNanos : Nat := 0
  inode : Nat := 0
  fid : Nat := 0
  uid : Nat := 0
  gid : Nat := 0
  treeSize : Nat := 0
  mTimeSec : Nat := 0
  size : Nat := 0
  treeCount : Nat := 0
  file : GoStr := []
  etag : GoStr := []
  instanceURL : GoStr := []
  sysACL : GoStr := []
  attrs : KV := []
deriving DecidableEq

/-- File-metadata record of an MDResponse (erpc st.Fmd). -/
structure FmdRec where
  id : Nat := 0
  uid : Nat := 0
  gid : Nat := 0
  mtimeSec : Nat := 0
  name : GoStr := []
  xattrs : KV := []
  size : Nat := 0
deriving DecidableEq

/-- Container-metadata record of an MDResponse (erpc st.Cmd). -/
structure CmdRec where
  id : Nat := 0
  uid : Nat := 0
  gid : Nat := 0
  mtimeSec : Nat := 0
  name : GoStr := []
  xattrs : KV := []
deriving DecidableEq

/-- Streamed metadata response of the MGM gRPC service. -/
structure MDResponse where
  rtype : Nat := 0
  fmd : Option FmdRec := none
  cmd : Option CmdRec := none
deriving DecidableEq

/-- Model of grpcMDResponseToFileInfo: an error when both records are
missing, the file record preferred when present, size forced to zero for
containers, and the etag read back from the copied attributes. -/
def grpcToFileInfo (st : MDResponse) : Except EosError FileInfo :=
  match st.fmd, st.cmd with
  | none, none =>
    .error (.wrapped "Invalid response (st.Cmd and st.Fmd are nil)".data (.notSupported []))
  | some f, _ =>
    .ok
      { isDir := st.rtype != 0
        inode := f.id
        uid := f.uid
        gid := f.gid
        mTimeSec := f.mtimeSec
        file := f.name
        attrs := f.xattrs
        size := f.size
        etag := kvGet f.xattrs "etag".data }
  | none, some c =>
    .ok
      { isDir := st.rtype != 0
        inode := c.id
        uid := c.uid
        gid := c.gid
        mTimeSec := c.mtimeSec
        file := c.name
        attrs := c.xattrs
        size := 0
        etag := kvGet c.xattrs "etag".data }

/-- Receive loop of (c *Client).List over a Find stream: end of stream
returns the accumulated entries, a nil response maps to NotFound, a
conversion error aborts, and every converted entry is appended with no
filtering of any kind. -/
def listLoop (path : GoStr) : List (Option MDResponse) → Except EosError (List FileInfo)
  | [] => .ok []
  | none :: _ => .error (.notFound path)
  | some r :: rest =>
    match grpcToFileInfo r with
    | .error e => .error e
    | .ok fi =>
      match listLoop path rest with
      | .error e => .error e
      | .ok tail => .ok (fi :: tail)

/-- Model of (c *Client).List: issue find with max-depth 1 and consume the
stream.  The requested path takes no part in the loop: List applies no
parent-entry filter. -/
def clientList (path : GoStr) (stream : List (Option MDResponse)) :
    Except EosError (List FileInfo) :=
  listLoop path stream

/-- State machine folding the space-separated key=value tokens of a find
line into a map, pairing each xattrn token with the following xattrv
token. -/
def xattrFold : KV → GoStr → List GoStr → KV
  | kv, _, [] => kv
  | kv, prev, p :: rest =>
    match splitOnChar '=' p with
    | [k, v] =>
      if k = "xattrn".data then xattrFold kv v rest
      else if k = "xattrv".data then xattrFold (kvSet kv prev v) [] rest
      else xattrFold (kvSet kv k v) prev rest
    | _ => xattrFold kv prev rest

/-- Second result of a dot split of the mtime value.  Go indexes mtime[1]
unconditionally and would panic without a dot; the model fails instead. -/
def secondPiece : List GoStr → Option GoStr
  | _ :: x :: _ => some x
  | _ => none

/-- Optional-field parse of mapToFileInfo: an absent field counts zero, a
present field must parse. -/
def optFieldNat (v : Option GoStr) : Option Nat :=
  match v with
  | none => some 0
  | some s => goParseUint s 64

/-- Model of mapToFileInfo: required numeric fields ino, fid, uid, gid,
optional treesize, files, container and size, the mtime split at the dot,
and is-dir decided by the presence of the files counter. -/
def mapToFileInfo (instanceURL : GoStr) (kv : KV) : Option FileInfo :=
  (goParseUint (kvGet kv "ino".data) 64).bind fun inode =>
  (goParseUint (kvGet kv "fid".data) 64).bind fun fid =>
  (goParseUint (kvGet kv "uid".data) 64).bind fun uid =>
  (goParseUint (kvGet kv "gid".data) 64).bind fun gid =>
  (optFieldNat (kvFind kv "treesize".data)).bind fun treeSize =>
  (optFieldNat (kvFind kv "files".data)).bind fun fileCounter =>
  (optFieldNat (kvFind kv "container".data)).bind fun dirCounter =>
  (optFieldNat (kvFind kv "size".data)).bind fun size =>
  let mtime := splitOnChar '.' (kvGet kv "mtime".data)
  (goParseUint (mtime.headD []) 64).bind fun mtimesec =>
  (secondPiece mtime).bind fun m1 =>
  (goParseUint m1 32).bind fun mtimenanos =>
  some
    { file := kvGet kv "file".data
      inode := inode
      fid := fid
      uid := uid
      gid := gid
      etag := kvGet kv "etag".data
      size := size
      treeSize := treeSize
      mTimeSec := mtimesec
      mTimeNanos := mtimenanos
      isDir := (kvFind kv "files".data).isSome
      instanceURL := instanceURL
      sysACL := kvGet kv "sys.acl".data
      treeCount := fileCounter + dirCounter
      attrs := kv }

/-- Model of parseFileInfo: drop the fifteen-byte header, read the decimal
path length before the file marker, slice out the path, strip its trailing
slash, and fold the remaining tokens.  Go would panic when the marker is
absent or a slice bound overruns; the model fails or clips instead. -/
def parseFileInfo (instanceURL : GoStr) (raw : GoStr) : Option FileInfo :=
  let line := raw.drop 15
  match subIndex line " file=/".data with
  | none => none
  | some idx =>
    (goParseUint (line.take idx) 64).bind fun length =>
      let line := line.drop (idx + 6)
      let name := line.take length
      let kv0 := kvSet [] "file".data (trimSlash name)
      let line := line.drop (length + 1)
      let kv := xattrFold kv0 [] (splitOnChar ' ' line)
      mapToFileInfo instanceURL kv

/-- Line loop of parseFind: blank lines skipped, a parse failure aborting
the batch, and any entry whose path equals the cleaned requested directory
dropped. -/
def parseFindLines (instanceURL dirPath : GoStr) : List GoStr → Option (List FileInfo)
  | [] => some []
  | l :: rest =>
    if l = [] then parseFindLines instanceURL dirPath rest
    else
      match parseFileInfo instanceURL l with
      | none => none
      | some fi =>
        match parseFindLines instanceURL dirPath rest with
        | none => none
        | some tail =>
          some (if fi.file = pathClean dirPath then tail else fi :: tail)

/-- Model of (c *Client).parseFind. -/
def parseFind (instanceURL dirPath raw : GoStr) : Option (List FileInfo) :=
  parseFindLines instanceURL dirPath (splitOnChar '\n' raw)

/-- The recursive mkdir request CreateDir intends to send. -/
structure MkdirReq where
  mode : Nat
  recursive : Bool
  path : GoStr
deriving DecidableEq

/-- Model of (c *Client).CreateDir: parse the mode literal 0o750 in base
ten, return the parse error when it fails, and otherwise send the recursive
mkdir request with the parsed mode. -/
def createDir (path : GoStr) : Except EosError MkdirReq :=
  match goParseUint "0o750".data 64 with
  | none => .error (.invalidInput "strconv.ParseUint: parsing 0o750: invalid syntax".data)
  | some md => .ok { mode := md, recursive := true, path := path }

/-- Model of (c *Client).Rename: the body is a single errtypes.NotFound
return. -/
def clientRename (oldPath newPath : GoStr) : Except EosError Unit :=
  .error (.notFound ("acltype:".data ++ newPath))

/-- Model of (c *Client).GetQuota: the body is a single
errtypes.NotSupported return. -/
def clientGetQuota (username path : GoStr) : Except EosError (Nat × Nat) :=
  .error (.notSupported ("acltype:".data ++ path))

/-- Error mapping of (c *Client).execute on the child exit status: zero is
success, two becomes NotFound unwrapped, and every other nonzero status
keeps the raw exit error wrapped in the executing-command context. -/
def executeMap (exitStatus : Nat) (stderr : GoStr) : Except EosError Unit :=
  if exitStatus = 0 then .ok ()
  else if exitStatus = 2 then .error (.notFound stderr)
  else
    .error (.wrapped "eosclient: error while executing command".data (.exitErr exitStatus stderr))

/-- Error mapping of (c *Client).executeEOS on the child exit status: as
executeMap, with status twenty-two additionally mapped to PermissionDenied
before the wrapping. -/
def executeEOSMap (exitStatus : Nat) (stderr : GoStr) : Except EosError Unit :=
  if exitStatus = 0 then .ok ()
  else if exitStatus = 2 then .error (.notFound stderr)
  else if exitStatus = 22 then
    .error (.wrapped "eosclient: error while executing command".data (.permissionDenied stderr))
  else
    .error (.wrapped "eosclient: error while executing command".data (.exitErr exitStatus stderr))

/-- Mutation of the cache directory performed by an operation. -/
inductive FsAction
  | create (name : GoStr)
  | remove (name : GoStr)
deriving DecidableEq

/-- Apply a sequence of cache-directory mutations to the set of file names
present in the cache directory. -/
def applyFs (fs : List GoStr) (acts : List FsAction) : List GoStr :=
  acts.foldl
    (fun fs a =>
      match a with
      | .create n => if n ∈ fs then fs else n :: fs
      | .remove n => fs.filter (fun m => m != n))
    fs

/-- Cache-directory mutations of (c *Client).Read: a successful xrdcopy
leaves the downloaded file at eosread-(uuid); no line of Read removes it on
any path. -/
def readActions (uuid : GoStr) (xrdcopyOk : Bool) : List FsAction :=
  if xrdcopyOk then [.create ("eosread-".data ++ uuid)] else []

/-- Cache-directory mutations of releasing the handle Read returns: the
handle is the plain os.File of os.Open, whose Close closes the descriptor
and unlinks nothing. -/
def handleReleaseActions : List FsAction := []

/-- Cache-directory mutations of (c *Client).Write: ioutil.TempFile creates
the eoswrite- temporary and the deferred os.RemoveAll deletes it on every
return path, whether the stream copy or the xrdcopy push failed or
succeeded. -/
def writeActions (tmpName : GoStr) : List FsAction :=
  [.create tmpName, .remove tmpName]

/-- Does the string contain the needle at some positive index immediately
preceded by an ampersand or question mark?  This follows the words of the
specification clause on malicious URLs, for comparison with the check the
source performs. -/
def anyFlagged : GoStr → GoStr → Bool
  | [], _ => false
  | [_], _ => false
  | a :: b :: rest, needle =>
    ((a = '&' || a = '?') && strStarts (b :: rest) needle) || anyFlagged (b :: rest) needle

/-- The specification notion of a malicious url path: some occurrence of
eos.ruid or eos.guid preceded by an ampersand or question mark. -/
def specMalicious (urlpath : GoStr) : Bool :=
  anyFlagged urlpath "eos.ruid".data || anyFlagged urlpath "eos.guid".data

/-- The check buildFullURL performs for one needle: strings.Index finds the
FIRST occurrence only, and the preceding byte of that occurrence must be an
ampersand or question mark. -/
def firstIndexFlagged (urlpath needle : GoStr) : Bool :=
  match subIndex urlpath needle with
  | none => false
  | some p1 =>
    if p1 > 0 then
      match urlpath.get? (p1 - 1) with
      | some c => c = '&' || c = '?'
      | none => false
    else false

/-- Final URL assembled by buildFullURL, abstracted to the url path and the
two identity query parameters the source sets. -/
structure FinalURL where
  path : GoStr
  ruid : GoStr
  rgid : GoStr
deriving DecidableEq

/-- Model of (c *Client).buildFullURL of the eoshttp package.  The source
first runs url.Parse on the configured base url, then u.Parse on the
request path, returning the parse error when either call fails, and only
then performs the malicious-url check, reproduced exactly here: each needle
is looked up once with strings.Index and only that first occurrence is
tested for a preceding ampersand or question mark.  net/url is
standard-library code outside this repository, so whether its Parse accepts
a given string is kept abstract as the parseOk parameter, and the theorems
below hold for every value of it; the query assembly through u.Query, Set
and Encode is abstracted to the triple of path and identity parameters. -/
def buildFullURL (parseOk : GoStr → Bool) (baseURL urlpath uid gid : GoStr) :
    Except EosError FinalURL :=
  if parseOk baseURL then
    if parseOk urlpath then
      if firstIndexFlagged urlpath "eos.ruid".data then
        .error (.permissionDenied ("Illegal malicious url ".data ++ urlpath))
      else if firstIndexFlagged urlpath "eos.guid".data then
        .error (.permissionDenied ("Illegal malicious url ".data ++ urlpath))
      else .ok { path := urlpath, ruid := uid, rgid := gid }
    else .error (.urlParseErr urlpath)
  else .error (.urlParseErr baseURL)

/-- The default BaseURL that Options.Init installs when none is
configured. -/
def defaultBaseURL : GoStr := "https://eos-example.org".data

/-- One attempt of the HTTP client inside the redirect/retry loops: either
the transport fails (with or without the os.IsTimeout flag) or a response
with the given status code arrives.  http.Client.Do yields exactly one of a
response and an error, so a nil response with a nil error does not occur. -/
inductive HttpAttempt
  | transportErr (isTime : Bool) (msg : GoStr)
  | response (status : Nat)
deriving DecidableEq

/-- Outcome of a redirect/retry loop. -/
inductive Outcome
  | opTimeoutHit
  | failed (e : EosError)
  | succeeded
deriving DecidableEq

/-- One loop iteration either continues or exits with an outcome. -/
inductive LoopStep
  | nextIter
  | exit (o : Outcome)
deriving DecidableEq

/-- Model of (c *Client).getRespError: a transport error is passed through,
statuses zero, 200 and 201 carry no error, 403 maps to PermissionDenied,
404 to NotFound and every other status to the internal catch-all. -/
def getRespError (a : HttpAttempt) : Option EosError :=
  match a with
  | .transportErr true m => some (.netTimeout m)
  | .transportErr false m => some (.netFail m)
  | .response s =>
    if s = 0 ∨ s = 200 ∨ s = 201 then none
    else if s = 403 then some (.permissionDenied "rspdesc".data)
    else if s = 404 then some (.notFound "rspdesc".data)
    else some (.internalError "Err from EOS: rspdesc".data)

/-- Does os.IsTimeout hold of the error?  Only the raw network timeout
satisfies it; the mapped status errors never do. -/
def isTimeoutErr : EosError → Bool
  | .netTimeout _ => true
  | _ => false

/-- One iteration of the GETFile loop at index i, driven by the Unix-second
clock ts and the attempt stream ev: the operation deadline is checked first,
then statuses 302 and 307 redirect and continue, then getRespError decides
between a retried recoverable timeout, a propagated error, and success. -/
def getStep (opT t0 : Nat) (ts : Nat → Nat) (ev : Nat → HttpAttempt) (i : Nat) : LoopStep :=
  if ts i - t0 > opT then .exit .opTimeoutHit
  else
    match ev i with
    | .response 302 => .nextIter
    | .response 307 => .nextIter
    | a =>
      match getRespError a with
      | some e => if isTimeoutErr e then .nextIter else .exit (.failed e)
      | none => .exit .succeeded

/-- One iteration of the PUTFile loop: as getStep, except that only status
307 redirects. -/
def putStep (opT t0 : Nat) (ts : Nat → Nat) (ev : Nat → HttpAttempt) (i : Nat) : LoopStep :=
  if ts i - t0 > opT then .exit .opTimeoutHit
  else
    match ev i with
    | .response 307 => .nextIter
    | a =>
      match getRespError a with
      | some e => if isTimeoutErr e then .nextIter else .exit (.failed e)
      | none => .exit .succeeded

/-- One iteration of the Head loop: the deadline check, then getRespError;
when no error is produced (statuses zero, 200, 201) the body reaches its end
and the for loop continues, so no iteration exits with success. -/
def headStep (opT t0 : Nat) (ts : Nat → Nat) (ev : Nat → HttpAttempt) (i : Nat) : LoopStep :=
  if ts i - t0 > opT then .exit .opTimeoutHit
  else
    match getRespError (ev i) with
    | some e => if isTimeoutErr e then .nextIter else .exit (.failed e)
    | none => .nextIter

/-- Run a loop from iteration i with the given fuel, returning the outcome
and the exit iteration, or none when the fuel ran out before any exit. -/
def runLoop (step : Nat → LoopStep) : Nat → Nat → Option (Outcome × Nat)
  | 0, _ => none
  | fuel + 1, i =>
    match step i with
    | .exit o => some (o, i)
    | .nextIter => runLoop step fuel (i + 1)

/-- Model of GETFile as a whole: buildFullURL runs first and any error it
returns (the url parse error or the malicious-url rejection) is returned
before the loop performs any iteration, hence before any network request is
sent; otherwise the redirect/retry loop runs. -/
def getFileRun (parseOk : GoStr → Bool) (baseURL urlpath uid gid : GoStr) (opT t0 : Nat)
    (ts : Nat → Nat) (ev : Nat → HttpAttempt) (fuel : Nat) :
    Except EosError (Option (Outcome × Nat)) :=
  match buildFullURL parseOk baseURL urlpath uid gid with
  | .error e => .error e
  | .ok _ => .ok (runLoop (getStep opT t0 ts ev) fuel 0)

/-- Model of PUTFile as a whole, as getFileRun. -/
def putFileRun (parseOk : GoStr → Bool) (baseURL urlpath uid gid : GoStr) (opT t0 : Nat)
    (ts : Nat → Nat) (ev : Nat → HttpAttempt) (fuel : Nat) :
    Except EosError (Option (Outcome × Nat)) :=
  match buildFullURL parseOk baseURL urlpath uid gid with
  | .error e => .error e
  | .ok _ => .ok (runLoop (putStep opT t0 ts ev) fuel 0)

/-- Model of Head as a whole, as getFileRun. -/
def headRun (parseOk : GoStr → Bool) (baseURL urlpath uid gid : GoStr) (opT t0 : Nat)
    (ts : Nat → Nat) (ev : Nat → HttpAttempt) (fuel : Nat) :
    Except EosError (Option (Outcome × Nat)) :=
  match buildFullURL parseOk baseURL urlpath uid gid with
  | .error e => .error e
  | .ok _ => .ok (runLoop (headStep opT t0 ts ev) fuel 0)

/-- The literal S6 recycle fixture of the specification, with a single space
between every token. -/
def s6Fixture : GoStr :=
  "recycle=ls recycle-bin=/eos/backup/proc/recycle/ uid=alice gid=it size=381038 deletion-time=1510823151.0 type=file keylength.restore-path=11 restore-path=/eos/u/a a/b restore-key=000000002544fdb3".data

/-- The S6 fixture with the double space after the first token that real
recycle ls -m output carries (as in the example lines quoted in the
source above parseRecycleEntry). -/
def s6FixtureRealSpacing : GoStr :=
  "recycle=ls  recycle-bin=/eos/backup/proc/recycle/ uid=alice gid=it size=381038 deletion-time=1510823151.0 type=file keylength.restore-path=11 restore-path=/eos/u/a a/b restore-key=000000002544fdb3".data

/-- A backend Find response carrying the listed directory itself. -/
def parentResp : MDResponse :=
  { rtype := 1
    fmd := none
    cmd := some { id := 7, uid := 5, gid := 6, mtimeSec := 0, name := "/eos/dir".data, xattrs := [] } }

/-- One well-formed find output line. -/
def findFixtureLine : GoStr :=
  "keylength.file=9 file=/eos/test ino=1 fid=2 uid=3 gid=4 mtime=5.6".data

/-- The FileInfo parsed from findFixtureLine. -/
def findFixtureInfo : FileInfo :=
  (parseFileInfo "u".data findFixtureLine).getD {}

/-- Does the step exit the loop? -/
def isExitStep : LoopStep → Bool
  | .exit _ => true
  | .nextIter => false

end EosClient

namespace EosClient

/-- Claim C2, counterexample: on the literal S6 fixture (single spaces) the
token at position nine of the truncated token list is the bare path tail, so
the restore-path binding comes from the token at position eight and the
parsed entry carries restore path /eos/u/a, not the /eos/u/a a/b the claim
asserts. -/
theorem c2_counterexample :
    parseRecycleList s6Fixture =
      some [{ restorePath := "/eos/u/a".data
              restoreKey := "000000002544fdb3".data
              size := 381038
              deletionMTime := 1510823151
              isDir := false }] ∧
    "/eos/u/a".data ≠ "/eos/u/a a/b".data := by
  constructor
  · decide
  · decide

/-- Claim C2 (corrected): parsing splits each line on single spaces, takes
the last token as the restore-key pair and rejoins the tokens from position
nine up to (but excluding) the last with spaces before key/value splitting;
on the literal S6 fixture this yields one entry with restore path /eos/u/a,
and on the fixture with the double-space separator of real recycle output it
yields the entry with restore path /eos/u/a a/b and otherwise identical
fields. -/
theorem c2_recycle_parsing :
    parseRecycleList s6Fixture =
      some [{ restorePath := "/eos/u/a".data
              restoreKey := "000000002544fdb3".data
              size := 381038
              deletionMTime := 1510823151
              isDir := false }] ∧
    parseRecycleList s6FixtureRealSpacing =
      some [{ restorePath := "/eos/u/a a/b".data
              restoreKey := "000000002544fdb3".data
              size := 381038
              deletionMTime := 1510823151
              isDir := false }] := by
  constructor
  · decide
  · decide

/-- Claim C4, counterexample: CreateDir does not proceed with a mode-zero
mkdir request; the base-ten parse of the 0o750 literal fails, so CreateDir
returns the parse error and issues no request at all. -/
theorem c4_counterexample :
    createDir "/eos/newdir".data ≠
      Except.ok { mode := 0, recursive := true, path := "/eos/newdir".data } ∧
    createDir "/eos/newdir".data =
      .error (.invalidInput "strconv.ParseUint: parsing 0o750: invalid syntax".data) := by
  constructor
  · decide
  · decide

/-- Claim C4 (corrected): for every path, the base-ten parse of the literal
0o750 fails, CreateDir returns that parse error and the recursive mkdir
request is never issued. -/
theorem c4_mkdir_mode (path : GoStr) :
    createDir path =
      .error (.invalidInput "strconv.ParseUint: parsing 0o750: invalid syntax".data) := by
  rfl

/-- Claim C5 (code bug): when force-single-user mode is set, getUnixUser
always looks up the configured SingleUsername whatever the input username
is; but the defaulting in Options.init is inverted, so an unset
SingleUsername stays empty (the lookup targets the empty username) while a
configured one is overwritten with apache, contradicting the option field's
own documentation that it defaults to apache. -/
theorem c5_single_user_mode :
    (optionsInit { forceSingleUserMode := true, singleUsername := [] }).singleUsername = [] ∧
    (optionsInit
        { forceSingleUserMode := true, singleUsername := "www-data".data }).singleUsername =
      "apache".data ∧
    ∀ (su a b : GoStr),
      lookupTarget { forceSingleUserMode := true, singleUsername := su } a =
        lookupTarget { forceSingleUserMode := true, singleUsername := su } b := by
  refine ⟨by decide, by decide, fun su a b => rfl⟩

/-- Claim C6, counterexample: Rename surfaces a NotFound error, whose kind
differs from the NotSupported kind that stands for Unimplemented. -/
theorem c6_counterexample :
    clientRename "/old".data "/new".data =
      .error (.notFound "acltype:/new".data) ∧
    errKind (.notFound "acltype:/new".data) ≠ ErrKind.notSupported := by
  constructor
  · decide
  · decide

/-- Claim C6 (corrected): for every input, Rename fails with a NotFound
error (not an Unimplemented one), and GetQuota fails with the NotSupported
error that stands for the Unimplemented kind. -/
theorem c6_rename_quota (oldPath newPath username path : GoStr) :
    clientRename oldPath newPath = .error (.notFound ("acltype:".data ++ newPath)) ∧
    clientGetQuota username path = .error (.notSupported ("acltype:".data ++ path)) :=
  ⟨rfl, rfl⟩

/-- Claim C7, counterexample: execute (the xrdcopy runner) has no mapping
for child exit code twenty-two; it returns the wrapped raw exit error, whose
kind is not PermissionDenied. -/
theorem c7_counterexample :
    executeMap 22 "access denied".data =
      .error
        (.wrapped "eosclient: error while executing command".data
          (.exitErr 22 "access denied".data)) ∧
    errKind
        (.wrapped "eosclient: error while executing command".data
          (.exitErr 22 "access denied".data)) ≠
      ErrKind.permissionDenied := by
  constructor
  · decide
  · decide

/-- Claim C7 (corrected): both runners treat exit zero as success and map
exit two to NotFound; only executeEOS maps exit twenty-two to
PermissionDenied, while execute leaves exit twenty-two as a wrapped raw
child exit error. -/
theorem c7_exit_code_mapping (stderr : GoStr) :
    executeMap 0 stderr = .ok () ∧
    (∃ m, executeMap 2 stderr = .error m ∧ errKind m = .notFound) ∧
    (∃ m, executeMap 22 stderr = .error m ∧ errKind m = .childExit) ∧
    executeEOSMap 0 stderr = .ok () ∧
    (∃ m, executeEOSMap 2 stderr = .error m ∧ errKind m = .notFound) ∧
    (∃ m, executeEOSMap 22 stderr = .error m ∧ errKind m = .permissionDenied) :=
  ⟨rfl, ⟨_, rfl, rfl⟩, ⟨_, rfl, rfl⟩, rfl, ⟨_, rfl, rfl⟩, ⟨_, rfl, rfl⟩⟩

/-- Claim C8, counterexample: after a successful read and the release of the
returned handle, the cache file with the generated eosread- naming is still
present in the cache directory, because neither Read nor the os.File handle
it returns ever deletes it. -/
theorem c8_counterexample :
    applyFs [] (readActions "u1".data true ++ handleReleaseActions) = ["eosread-u1".data] ∧
    strStarts "eosread-u1".data "eosread-".data = true := by
  constructor
  · decide
  · decide

/-- Claim C8 (corrected): the eoswrite- temporary staged by Write is deleted
on every exit path of Write (the net cache effect of Write removes the
temporary and touches nothing else), while the eosread- cache file of a
successful Read remains in the cache directory even after the returned
handle is released. -/
theorem c8_cache_lifecycle (tmpName uuid : GoStr) (fs : List GoStr) :
    applyFs fs (writeActions tmpName) = fs.filter (fun m => m != tmpName) ∧
    ("eosread-".data ++ uuid) ∈ applyFs fs (readActions uuid true ++ handleReleaseActions) := by
  constructor
  · show (if tmpName ∈ fs then fs else tmpName :: fs).filter (fun m => m != tmpName) =
      fs.filter (fun m => m != tmpName)
    by_cases h : tmpName ∈ fs
    · rw [if_pos h]
    · rw [if_neg h, List.filter_cons]
      simp
  · show ("eosread-".data ++ uuid) ∈
      (if ("eosread-".data ++ uuid) ∈ fs then fs else ("eosread-".data ++ uuid) :: fs)
    by_cases h : ("eosread-".data ++ uuid) ∈ fs
    · rw [if_pos h]; exact h
    · rw [if_neg h]; exact List.mem_cons_self _ _

/-- Claim C1, counterexample: the url path eos.ruid&eos.ruid=1 contains
eos.ruid immediately preceded by an ampersand (it contains the substring
&eos.ruid=), yet buildFullURL accepts it, because strings.Index only
inspects the first occurrence, which sits at index zero; GETFile then
proceeds into the request loop instead of failing PermissionDenied.  The
two strings this run parses — the default base url and this path — are
printable ASCII without percent signs or colons, strings that net/url's
Parse accepts, so the constant-true parse oracle coincides with the
standard-library behavior on every string the run queries. -/
theorem c1_counterexample :
    specMalicious "eos.ruid&eos.ruid=1".data = true ∧
    buildFullURL (fun _ => true) defaultBaseURL "eos.ruid&eos.ruid=1".data "1".data "2".data =
      .ok { path := "eos.ruid&eos.ruid=1".data, ruid := "1".data, rgid := "2".data } ∧
    getFileRun (fun _ => true) defaultBaseURL "eos.ruid&eos.ruid=1".data "1".data "2".data
        360 0 (fun i => i) (fun _ => .response 200) 1 =
      .ok (some (.succeeded, 0)) := by
  refine ⟨by decide, by decide, by decide⟩

/-- Claim C1 (corrected): when the FIRST occurrence of eos.ruid (or of
eos.guid) in the url path sits at a positive index and is immediately
preceded by an ampersand or question mark, GETFile, PUTFile and Head fail
before their loop runs a single iteration, hence before any network request
is sent — whatever strings the url parser accepts — and the error is the
PermissionDenied rejection exactly when the two url.Parse calls, which the
source runs first, accept the base url and the url path (a parse failure is
returned instead, still before any request). -/
theorem c1_malicious_url (parseOk : GoStr → Bool) (baseURL urlpath uid gid : GoStr)
    (opT t0 : Nat) (ts : Nat → Nat) (ev : Nat → HttpAttempt) (fuel : Nat)
    (h : firstIndexFlagged urlpath "eos.ruid".data = true ∨
      firstIndexFlagged urlpath "eos.guid".data = true) :
    (∃ e, buildFullURL parseOk baseURL urlpath uid gid = .error e ∧
      getFileRun parseOk baseURL urlpath uid gid opT t0 ts ev fuel = .error e ∧
      putFileRun parseOk baseURL urlpath uid gid opT t0 ts ev fuel = .error e ∧
      headRun parseOk baseURL urlpath uid gid opT t0 ts ev fuel = .error e) ∧
    (parseOk baseURL = true → parseOk urlpath = true →
      buildFullURL parseOk baseURL urlpath uid gid =
        .error (.permissionDenied ("Illegal malicious url ".data ++ urlpath))) := by
  have hperm : parseOk baseURL = true → parseOk urlpath = true →
      buildFullURL parseOk baseURL urlpath uid gid =
        .error (.permissionDenied ("Illegal malicious url ".data ++ urlpath)) := by
    intro h1 h2
    unfold buildFullURL
    rw [if_pos h1, if_pos h2]
    rcases h with h | h
    · rw [if_pos h]
    · by_cases hr : firstIndexFlagged urlpath "eos.ruid".data = true
      · rw [if_pos hr]
      · rw [if_neg hr, if_pos h]
  have hb : ∃ e, buildFullURL parseOk baseURL urlpath uid gid = .error e := by
    by_cases h1 : parseOk baseURL = true
    · by_cases h2 : parseOk urlpath = true
      · exact ⟨_, hperm h1 h2⟩
      · refine ⟨.urlParseErr urlpath, ?_⟩
        unfold buildFullURL
        rw [if_pos h1, if_neg h2]
    · refine ⟨.urlParseErr baseURL, ?_⟩
      unfold buildFullURL
      rw [if_neg h1]
  obtain ⟨e, he⟩ := hb
  refine ⟨⟨e, he, ?_, ?_, ?_⟩, hperm⟩
  · unfold getFileRun; rw [he]
  · unfold putFileRun; rw [he]
  · unfold headRun; rw [he]

/-- Witness for the corrected claim C1 at the concrete url path with a uid
parameter already present after the question mark; the two strings parsed
are printable ASCII without percent signs or colons, which net/url's Parse
accepts, so the constant-true parse oracle coincides with the
standard-library behavior on every string this run queries. -/
theorem c1_malicious_url_witness :
    buildFullURL (fun _ => true) defaultBaseURL "/file?eos.ruid=0".data "1".data "2".data =
      .error (.permissionDenied ("Illegal malicious url ".data ++ "/file?eos.ruid=0".data)) ∧
    headRun (fun _ => true) defaultBaseURL "/file?eos.ruid=0".data "1".data "2".data 360 0
        (fun i => i) (fun _ => .response 200) 5 =
      .error (.permissionDenied ("Illegal malicious url ".data ++ "/file?eos.ruid=0".data)) := by
  have h := c1_malicious_url (fun _ => true) defaultBaseURL "/file?eos.ruid=0".data
    "1".data "2".data 360 0 (fun i => i) (fun _ => .response 200) 5 (Or.inl (by decide))
  refine ⟨h.2 rfl rfl, ?_⟩
  obtain ⟨e, he, _, _, hh⟩ := h.1
  have h2 := h.2 rfl rfl
  rw [he] at h2
  injection h2 with h3
  rw [h3] at hh
  exact hh

/-- Length preservation of the List receive loop: one FileInfo per streamed
record, nothing filtered. -/
theorem listLoop_length (path : GoStr) (stream : List (Option MDResponse)) :
    ∀ l, listLoop path stream = .ok l → l.length = stream.length := by
  induction stream with
  | nil =>
    intro l h
    simp only [listLoop] at h
    cases h
    rfl
  | cons hd rest ih =>
    intro l h
    cases hd with
    | none => simp [listLoop] at h
    | some r =>
      simp only [listLoop] at h
      cases hg : grpcToFileInfo r with
      | error e => rw [hg] at h; cases h
      | ok fi =>
        rw [hg] at h
        cases hr : listLoop path rest with
        | error e => rw [hr] at h; cases h
        | ok tail =>
          rw [hr] at h
          cases h
          simp [ih tail hr]

/-- The parseFind line loop never returns an entry whose path equals the
cleaned requested directory. -/
theorem parseFindLines_no_parent (instanceURL dirPath : GoStr) (ls : List GoStr) :
    ∀ l e, parseFindLines instanceURL dirPath ls = some l → e ∈ l →
      e.file ≠ pathClean dirPath := by
  induction ls with
  | nil =>
    intro l e h he
    simp only [parseFindLines] at h
    cases h
    cases he
  | cons hd rest ih =>
    intro l e h he
    by_cases hhd : hd = []
    · rw [parseFindLines, if_pos hhd] at h
      exact ih l e h he
    · rw [parseFindLines, if_neg hhd] at h
      cases hp : parseFileInfo instanceURL hd with
      | none => rw [hp] at h; cases h
      | some fi =>
        rw [hp] at h
        cases hr : parseFindLines instanceURL dirPath rest with
        | none => rw [hr] at h; cases h
        | some tail =>
          rw [hr] at h
          cases h
          by_cases heq : fi.file = pathClean dirPath
          · rw [if_pos heq] at he
            exact ih tail e hr he
          · rw [if_neg heq] at he
            cases he with
            | head => exact heq
            | tail _ htl => exact ih tail e hr htl

/-- Claim C3, counterexample: when the backend streams the listed directory
itself, List returns it: the result contains an entry whose path equals the
cleaned requested path, because the gRPC List loop applies no parent
filtering at all. -/
theorem c3_counterexample :
    clientList "/eos/dir".data [some parentResp] =
      .ok [{ isDir := true, inode := 7, uid := 5, gid := 6, mTimeSec := 0,
             file := "/eos/dir".data, attrs := [], size := 0, etag := [] }] ∧
    pathClean "/eos/dir".data = "/eos/dir".data := by
  constructor
  · decide
  · decide

/-- Claim C3 (corrected): the gRPC List performs no parent filtering — it
returns exactly one entry per streamed record — while the path-equality
filter after trailing-slash normalization exists only in parseFind, whose
output never contains an entry with path equal to the cleaned requested
directory. -/
theorem c3_list_filtering :
    (∀ (path : GoStr) (stream : List (Option MDResponse)) (l : List FileInfo),
        clientList path stream = .ok l → l.length = stream.length) ∧
    (∀ (instanceURL dirPath raw : GoStr) (l : List FileInfo) (e : FileInfo),
        parseFind instanceURL dirPath raw = some l → e ∈ l →
          e.file ≠ pathClean dirPath) :=
  ⟨fun path stream l h => listLoop_length path stream l h,
   fun instanceURL dirPath raw l e h he =>
     parseFindLines_no_parent instanceURL dirPath (splitOnChar '\n' raw) l e h he⟩

/-- Witness for the corrected claim C3 at concrete inputs: the single-entry
stream of the parent response, and one parsed find line whose entry differs
from the cleaned directory. -/
theorem c3_list_filtering_witness :
    [{ isDir := true, inode := 7, uid := 5, gid := 6, mTimeSec := 0,
       file := "/eos/dir".data, attrs := [], size := 0,
       etag := [] : FileInfo }].length = [some parentResp].length ∧
    findFixtureInfo.file ≠ pathClean "/a".data := by
  constructor
  · exact c3_list_filtering.1 "/eos/dir".data [some parentResp] _ (by decide)
  · exact c3_list_filtering.2 "u".data "/a".data findFixtureLine [findFixtureInfo]
      findFixtureInfo (by decide) (by decide)

/-- A loop whose step stream exits somewhere terminates once given enough
fuel. -/
theorem runLoop_of_exit (step : Nat → LoopStep) :
    ∀ k i, isExitStep (step (i + k)) = true →
      ∃ o j, runLoop step (k + 1) i = some (o, j) := by
  intro k
  induction k with
  | zero =>
    intro i h
    rw [Nat.add_zero] at h
    cases hs : step i with
    | exit o => exact ⟨o, i, by simp [runLoop, hs]⟩
    | nextIter => rw [hs] at h; cases h
  | succ k ih =>
    intro i h
    cases hs : step i with
    | exit o => exact ⟨o, i, by simp [runLoop, hs]⟩
    | nextIter =>
      have h' : isExitStep (step (i + 1 + k)) = true := by
        have : i + 1 + k = i + (k + 1) := by omega
        rw [this]
        exact h
      obtain ⟨o, j, hr⟩ := ih (i + 1) h'
      refine ⟨o, j, ?_⟩
      simp only [runLoop, hs]
      exact hr

/-- A loop run that returned an outcome exited at its exit index, having
continued at every index in between. -/
theorem runLoop_exit_frame (step : Nat → LoopStep) :
    ∀ fuel i o j, runLoop step fuel i = some (o, j) →
      step j = .exit o ∧ i ≤ j ∧ ∀ m, i ≤ m → m < j → step m = .nextIter := by
  intro fuel
  induction fuel with
  | zero => intro i o j h; cases h
  | succ fuel ih =>
    intro i o j h
    cases hs : step i with
    | exit o' =>
      simp only [runLoop, hs] at h
      cases h
      exact ⟨hs, Nat.le_refl _, fun m h1 h2 => absurd (Nat.lt_of_le_of_lt h1 h2) (Nat.lt_irrefl _)⟩
    | nextIter =>
      simp only [runLoop, hs] at h
      obtain ⟨he, hle, hmid⟩ := ih (i + 1) o j h
      refine ⟨he, Nat.le_of_succ_le hle, fun m h1 h2 => ?_⟩
      rcases Nat.eq_or_lt_of_le h1 with h1 | h1
      · rw [← h1]; exact hs
      · exact hmid m h1 h2

/-- A getStep iteration whose deadline check fires exits with the
operation-timeout outcome. -/
theorem getStep_timeout (opT t0 : Nat) (ts : Nat → Nat) (ev : Nat → HttpAttempt) (i : Nat)
    (h : ts i - t0 > opT) : getStep opT t0 ts ev i = .exit .opTimeoutHit := by
  unfold getStep
  rw [if_pos h]

/-- A putStep iteration whose deadline check fires exits with the
operation-timeout outcome. -/
theorem putStep_timeout (opT t0 : Nat) (ts : Nat → Nat) (ev : Nat → HttpAttempt) (i : Nat)
    (h : ts i - t0 > opT) : putStep opT t0 ts ev i = .exit .opTimeoutHit := by
  unfold putStep
  rw [if_pos h]

/-- A headStep iteration whose deadline check fires exits with the
operation-timeout outcome. -/
theorem headStep_timeout (opT t0 : Nat) (ts : Nat → Nat) (ev : Nat → HttpAttempt) (i : Nat)
    (h : ts i - t0 > opT) : headStep opT t0 ts ev i = .exit .opTimeoutHit := by
  unfold headStep
  rw [if_pos h]

/-- A getStep iteration that continued had passed its deadline check. -/
theorem getStep_next_clock (opT t0 : Nat) (ts : Nat → Nat) (ev : Nat → HttpAttempt) (i : Nat)
    (h : getStep opT t0 ts ev i = .nextIter) : ts i - t0 ≤ opT := by
  by_cases hc : ts i - t0 > opT
  · rw [getStep_timeout opT t0 ts ev i hc] at h
    cases h
  · omega

/-- Claim C9 (confirmed): GETFile and PUTFile terminate on every execution
whose clock is unbounded, even under an endless stream of redirects or
recoverable timeouts, because the operation deadline is checked at the top
of each iteration; no iteration count caps the loop — under a frozen clock a
pure redirect stream exhausts any amount of fuel — and when successive
iterations advance the clock by at most one second, the exit happens within
one second of the configured limit. -/
theorem c9_deadline_termination (opT t0 : Nat) (ts : Nat → Nat) (ev : Nat → HttpAttempt) :
    ((∀ B, ∃ i, ts i - t0 > B) →
      (∃ fuel o j, runLoop (getStep opT t0 ts ev) fuel 0 = some (o, j)) ∧
      (∃ fuel o j, runLoop (putStep opT t0 ts ev) fuel 0 = some (o, j))) ∧
    (∀ fuel i,
      runLoop (getStep opT t0 (fun _ => t0) (fun _ => .response 307)) fuel i = none) ∧
    (∀ fuel i,
      runLoop (putStep opT t0 (fun _ => t0) (fun _ => .response 307)) fuel i = none) ∧
    (ts 0 = t0 → (∀ j, ts (j + 1) ≤ ts j + 1) →
      ∀ fuel o j, runLoop (getStep opT t0 ts ev) fuel 0 = some (o, j) →
        ts j ≤ t0 + opT + 1) := by
  refine ⟨?_, ?_, ?_, ?_⟩
  · intro hclock
    obtain ⟨i, hi⟩ := hclock opT
    constructor
    · have hexit : isExitStep (getStep opT t0 ts ev (0 + i)) = true := by
        rw [Nat.zero_add, getStep_timeout opT t0 ts ev i hi]
        rfl
      obtain ⟨o, j, hr⟩ := runLoop_of_exit (getStep opT t0 ts ev) i 0 hexit
      exact ⟨i + 1, o, j, hr⟩
    · have hexit : isExitStep (putStep opT t0 ts ev (0 + i)) = true := by
        rw [Nat.zero_add, putStep_timeout opT t0 ts ev i hi]
        rfl
      obtain ⟨o, j, hr⟩ := runLoop_of_exit (putStep opT t0 ts ev) i 0 hexit
      exact ⟨i + 1, o, j, hr⟩
  · intro fuel
    induction fuel with
    | zero => intro i; rfl
    | succ fuel ih =>
      intro i
      have hs : getStep opT t0 (fun _ => t0) (fun _ => .response 307) i = .nextIter := by
        unfold getStep
        simp only [Nat.sub_self]
        rw [if_neg (Nat.not_lt_zero opT)]
      simp only [runLoop, hs]
      exact ih (i + 1)
  · intro fuel
    induction fuel with
    | zero => intro i; rfl
    | succ fuel ih =>
      intro i
      have hs : putStep opT t0 (fun _ => t0) (fun _ => .response 307) i = .nextIter := by
        unfold putStep
        simp only [Nat.sub_self]
        rw [if_neg (Nat.not_lt_zero opT)]
      simp only [runLoop, hs]
      exact ih (i + 1)
  · intro h0 hgrow fuel o j hr
    obtain ⟨hexit, hle, hmid⟩ := runLoop_exit_frame (getStep opT t0 ts ev) fuel 0 o j hr
    cases j with
    | zero => omega
    | succ j' =>
      have hnext : getStep opT t0 ts ev j' = .nextIter :=
        hmid j' (Nat.zero_le _) (Nat.lt_succ_self _)
      have hclk : ts j' - t0 ≤ opT := getStep_next_clock opT t0 ts ev j' hnext
      have := hgrow j'
      omega

/-- Witness for claim C9: with the one-second-per-iteration clock and a
server that always redirects, both loops terminate, and the exit of the
concrete GETFile run stays within one second of the two-second deadline. -/
theorem c9_deadline_termination_witness :
    ((∃ fuel o j,
        runLoop (getStep 1 0 (fun i => i) (fun _ => .response 307)) fuel 0 = some (o, j)) ∧
      (∃ fuel o j,
        runLoop (putStep 1 0 (fun i => i) (fun _ => .response 307)) fuel 0 = some (o, j))) ∧
    ((fun i => i) : Nat → Nat) 2 ≤ 0 + 1 + 1 := by
  constructor
  · exact (c9_deadline_termination 1 0 (fun i => i) (fun _ => .response 307)).1
      (fun B => ⟨B + 1, by omega⟩)
  · exact (c9_deadline_termination 1 0 (fun i => i) (fun _ => .response 307)).2.2.2
      rfl (fun j => by omega) 3 .opTimeoutHit 2 (by decide)

/-- A headStep iteration never exits with success. -/
theorem headStep_no_success (opT t0 : Nat) (ts : Nat → Nat) (ev : Nat → HttpAttempt) (i : Nat)
    (o : Outcome) (h : headStep opT t0 ts ev i = .exit o) : o ≠ .succeeded := by
  unfold headStep at h
  by_cases hc : ts i - t0 > opT
  · rw [if_pos hc] at h
    cases h
    intro hfalse
    cases hfalse
  · rw [if_neg hc] at h
    cases hg : getRespError (ev i) with
    | none => simp only [hg] at h; cases h
    | some e =>
      simp only [hg] at h
      by_cases ht : isTimeoutErr e = true
      · rw [if_pos ht] at h; cases h
      · rw [if_neg ht] at h
        cases h
        intro hfalse
        cases hfalse

/-- A headStep iteration on a status the response-error mapping accepts
(zero, 200 or 201) either hits the deadline or continues. -/
theorem headStep_ok_status (opT t0 : Nat) (ts : Nat → Nat) (ev : Nat → HttpAttempt) (i : Nat)
    (h : ev i = .response 200 ∨ ev i = .response 201) :
    headStep opT t0 ts ev i =
      if ts i - t0 > opT then .exit .opTimeoutHit else .nextIter := by
  have hg : getRespError (ev i) = none := by
    rcases h with h | h <;> rw [h] <;> rfl
  unfold headStep
  rw [hg]

/-- Claim C10, counterexample: on the 2xx status 204 with a non-nil
response, Head does not re-send until the deadline: getRespError maps 204 to
the internal catch-all error and Head returns it on the very first
iteration, an outcome different from the operation-timeout one the claim
predicts for every 2xx answer. -/
theorem c10_counterexample :
    runLoop (headStep 360 0 (fun i => i) (fun _ => .response 204)) 1 0 =
      some (.failed (.internalError "Err from EOS: rspdesc".data), 0) ∧
    (200 ≤ 204 ∧ 204 < 300) ∧
    Outcome.failed (.internalError "Err from EOS: rspdesc".data) ≠ .opTimeoutHit := by
  refine ⟨by decide, by decide, by decide⟩

/-- Claim C10 (corrected): Head never returns success — no loop run ever
exits with the success outcome — and on the statuses its response-error
mapping accepts (200 or 201, the codes getRespError passes besides the
zero placeholder) with an unbounded clock, Head re-sends the request until
the operation deadline elapses and then returns the internal timeout
outcome; it returns early exactly when the response maps to an error (403,
404, any other unaccepted status such as the remaining 2xx codes, or a
non-timeout transport failure). -/
theorem c10_head_never_succeeds (opT t0 : Nat) (ts : Nat → Nat) (ev : Nat → HttpAttempt) :
    (∀ fuel o j, runLoop (headStep opT t0 ts ev) fuel 0 = some (o, j) → o ≠ .succeeded) ∧
    ((∀ i, ev i = .response 200 ∨ ev i = .response 201) → (∀ B, ∃ i, ts i - t0 > B) →
      ∃ fuel j, runLoop (headStep opT t0 ts ev) fuel 0 = some (.opTimeoutHit, j)) := by
  constructor
  · intro fuel o j hr
    have hexit := (runLoop_exit_frame (headStep opT t0 ts ev) fuel 0 o j hr).1
    exact headStep_no_success opT t0 ts ev j o hexit
  · intro hev hclock
    obtain ⟨i, hi⟩ := hclock opT
    have hexit : isExitStep (headStep opT t0 ts ev (0 + i)) = true := by
      rw [Nat.zero_add, headStep_timeout opT t0 ts ev i hi]
      rfl
    obtain ⟨o, j, hr⟩ := runLoop_of_exit (headStep opT t0 ts ev) i 0 hexit
    have hstep := (runLoop_exit_frame (headStep opT t0 ts ev) (i + 1) 0 o j hr).1
    rw [headStep_ok_status opT t0 ts ev j (hev j)] at hstep
    by_cases hc : ts j - t0 > opT
    · rw [if_pos hc] at hstep
      cases hstep
      exact ⟨i + 1, j, hr⟩
    · rw [if_neg hc] at hstep
      cases hstep

/-- Witness for the corrected claim C10: a concrete Head run against a
server that always answers 200 exits with the operation-timeout outcome, and
the outcome of a concrete terminated run differs from success. -/
theorem c10_head_never_succeeds_witness :
    Outcome.opTimeoutHit ≠ Outcome.succeeded ∧
    (∃ fuel j,
      runLoop (headStep 2 0 (fun i => i) (fun _ => .response 200)) fuel 0 =
        some (.opTimeoutHit, j)) := by
  constructor
  · exact (c10_head_never_succeeds 2 0 (fun i => i) (fun _ => .response 200)).1
      4 .opTimeoutHit 3 (by decide)
  · exact (c10_head_never_succeeds 2 0 (fun i => i) (fun _ => .response 200)).2
      (fun i => Or.inl rfl) (fun B => ⟨B + 1, by omega⟩)

end EosClient
